import Mathlib

/-!
Shallow embedding of `src/pc_build_validator.py`: a PC-build validator that
reads a budget, an inventory of components, and a list of candidate kits,
and reports the highest-scoring valid build.

Python integers are modelled as `Int`; the fallible `int(...)` conversion is
modelled as `Option Int`; the inventory dict is modelled as an association
list with insertion at the head (so that lookup finds the most recent
insertion, matching dict overwrite semantics); output is the final pair
`(best_score, best_kit)` together with the two printed lines.
-/

/-- Mirrors the Python `Component` class: id, type (one of `CPU`,
`Motherboard`, `GPU`, `RAM`, `PSU`), performance score, cost, and the two
free-form spec strings. -/
structure Component where
  id : String
  type : String
  performance : Int
  cost : Int
  spec1 : String
  spec2 : String
deriving Repr, DecidableEq

/-- A kit row: kit id plus the five referenced component ids, in the order
`kit_id cpu_id motherboard_id gpu_id ram_id psu_id` of the source. -/
structure Kit where
  kit_id : String
  cpu_id : String
  mobo_id : String
  gpu_id : String
  ram_id : String
  psu_id : String
deriving Repr, DecidableEq

/-- Mirrors the Python `PCBuild`: `main` always constructs its
`components_by_type` dict with exactly the five required keys, so the dict is
modelled as a record with one field per slot; `all_types_present` is then
true by construction. -/
structure PCBuild where
  kit_id : String
  cpu : Component
  mobo : Component
  gpu : Component
  ram : Component
  psu : Component
deriving Repr, DecidableEq

/-- Sum of the five resolved components' costs (`PCBuild.total_cost`; the
dict has five keys, so a component referenced by two slots is counted once
per slot). -/
def PCBuild.total_cost (b : PCBuild) : Int :=
  b.cpu.cost + b.mobo.cost + b.gpu.cost + b.ram.cost + b.psu.cost

/-- Sum of the five resolved components' performance scores
(`PCBuild.total_performance`). -/
def PCBuild.total_performance (b : PCBuild) : Int :=
  b.cpu.performance + b.mobo.performance + b.gpu.performance +
    b.ram.performance + b.psu.performance

/-- Worker for `splitWS`: walks the characters, `acc` holding the current
word reversed. -/
def splitWSAux : List Char → List Char → List String
  | [], acc => if acc.isEmpty then [] else [String.mk acc.reverse]
  | c :: cs, acc =>
    if c.isWhitespace then
      if acc.isEmpty then splitWSAux cs []
      else String.mk acc.reverse :: splitWSAux cs []
    else splitWSAux cs (c :: acc)

/-- Split on runs of whitespace discarding empty pieces, modelling Python
`str.split()` with no argument. -/
def splitWS (s : String) : List String :=
  splitWSAux s.toList []

/-- Model of Python `str.strip()`: drop leading and trailing whitespace. -/
def pyStrip (s : String) : String :=
  String.mk (((s.toList.dropWhile Char.isWhitespace).reverse.dropWhile
    Char.isWhitespace).reverse)

/-- Value of a list of ASCII decimal digits. -/
def digitsVal (cs : List Char) : Nat :=
  cs.foldl (fun a c => a * 10 + (c.toNat - 48)) 0

/-- Parse a nonempty all-digit character list, else `none`. -/
def parseDigits (cs : List Char) : Option Nat :=
  if !cs.isEmpty && cs.all Char.isDigit then some (digitsVal cs) else none

/-- Model of Python `int(...)` on whitespace-free tokens: an optional sign
followed by one or more decimal digits yields the value, anything else
raises (here: `none`).  Exotic acceptances of CPython (underscore digit
separators, non-ASCII digits) are outside the model. -/
def parseInt (s : String) : Option Int :=
  match s.toList with
  | '+' :: rest => (parseDigits rest).map Int.ofNat
  | '-' :: rest => (parseDigits rest).map (fun n => -(Int.ofNat n))
  | cs => (parseDigits cs).map Int.ofNat

/-- Mirrors `safe_int`: `int(x)` with any failure mapped to `None`. -/
def safe_int (s : String) : Option Int := parseInt s

/-- Mirrors `PCBuild.is_compatible`: socket match, RAM-type match, then the
three numeric parses, then the power-sufficiency check, short-circuiting on
the first failure exactly as the source does. -/
def PCBuild.is_compatible (b : PCBuild) : Bool :=
  if b.cpu.spec1 != b.mobo.spec1 then false
  else if b.ram.spec1 != b.mobo.spec2 then false
  else
    match parseInt b.cpu.spec2, parseInt b.gpu.spec2, parseInt b.psu.spec1 with
    | some cpu_tdp, some gpu_tdp, some psu_watt =>
        if psu_watt < cpu_tdp + gpu_tdp + 50 then false else true
    | _, _, _ => false

/-- The inventory dict `component_id -> Component`, as an association list;
insertion at the head makes lookup return the most recent binding. -/
abbrev Inventory := List (String × Component)

/-- Mirrors `inventory[component_id] = comp`: add or overwrite. -/
def Inventory.insert (inv : Inventory) (c : Component) : Inventory :=
  (c.id, c) :: inv

/-- Mirrors `inventory[cid]` / `cid in inventory`: dict lookup. -/
def Inventory.lookup (inv : Inventory) (cid : String) : Option Component :=
  List.lookup cid inv

/-- Parse one component row: needs at least six whitespace fields, with
performance and cost passing `safe_int`; otherwise the row is dropped
(`continue` in the source). -/
def parseComponentRow (line : String) : Option Component :=
  match splitWS line with
  | cid :: ctype :: perfS :: costS :: s1 :: s2 :: _ =>
    match safe_int perfS, safe_int costS with
    | some perf, some cost => some ⟨cid, ctype, perf, cost, s1, s2⟩
    | _, _ => none
  | _ => none

/-- One iteration of the component-reading loop: parse the row and insert it,
or skip it. -/
def insertRow (inv : Inventory) (line : String) : Inventory :=
  match parseComponentRow line with
  | some c => inv.insert c
  | none => inv

/-- The component-reading loop of `main` over the lines it consumes. -/
def buildInventory (lines : List String) : Inventory :=
  lines.foldl insertRow []

/-- Parse one kit row: needs at least six whitespace fields, extras ignored;
otherwise the row is dropped. -/
def parseKitRow (line : String) : Option Kit :=
  match splitWS line with
  | k :: c :: m :: g :: r :: p :: _ => some ⟨k, c, m, g, r, p⟩
  | _ => none

/-- The five inventory lookups of `main`; `none` if any id is absent
(mirrors `all(cid in inventory for cid in ids)` plus the dict reads). -/
def resolveKit (inv : Inventory) (kit : Kit) : Option PCBuild :=
  match inv.lookup kit.cpu_id, inv.lookup kit.mobo_id, inv.lookup kit.gpu_id,
      inv.lookup kit.ram_id, inv.lookup kit.psu_id with
  | some cpu, some mobo, some gpu, some ram, some psu =>
      some ⟨kit.kit_id, cpu, mobo, gpu, ram, psu⟩
  | _, _, _, _, _ => none

/-- The type-match loop of `main`: each resolved component's declared type
must equal the type expected for its slot. -/
def typesOk (b : PCBuild) : Bool :=
  b.cpu.type == "CPU" && b.mobo.type == "Motherboard" && b.gpu.type == "GPU" &&
    b.ram.type == "RAM" && b.psu.type == "PSU"

/-- Evaluation of one kit in `main`: resolution, type match, cost check,
compatibility check; `some score` exactly when the kit survives all of them
(`continue` in the source is `none` here). -/
def kitScore (inv : Inventory) (budget : Int) (kit : Kit) : Option Int :=
  match resolveKit inv kit with
  | none => none
  | some b =>
    if typesOk b then
      if b.total_cost > budget then none
      else if b.is_compatible then some b.total_performance else none
    else none

/-- One iteration of the best-tracking loop: replace the current best only
on a strictly greater score. -/
def stepKit (inv : Inventory) (budget : Int) (acc : Int × String) (kit : Kit) :
    Int × String :=
  match kitScore inv budget kit with
  | none => acc
  | some score => if score > acc.1 then (score, kit.kit_id) else acc

/-- The kit-evaluation loop of `main`, starting from
`best_score = 0, best_kit = "NONE"`. -/
def evalKits (inv : Inventory) (budget : Int) (kits : List Kit) : Int × String :=
  kits.foldl (stepKit inv budget) (0, "NONE")

/-- The stripped nonempty input lines (`data` in the source). -/
def stripData (raw : List String) : List String :=
  (raw.map pyStrip).filter (fun l => l != "")

/-- `int(data[idx].split()[0])` with both the index error on an empty split
and the conversion error mapped to `none`. -/
def parseFirstToken (line : String) : Option Int :=
  match splitWS line with
  | [] => none
  | w :: _ => parseInt w

/-- The input-reading part of `main`: `none` on the early-return paths
(empty data, bad budget line, missing or bad P line); otherwise the budget,
the inventory built from the next `P` lines, and the kits parsed from the
`K` lines (a missing or non-numeric K line means no kits). -/
def parseInput (raw : List String) : Option (Int × Inventory × List Kit) :=
  match stripData raw with
  | [] => none
  | bLine :: rest1 =>
    match parseFirstToken bLine with
    | none => none
    | some budget =>
      match rest1 with
      | [] => none
      | pLine :: rest2 =>
        match parseFirstToken pLine with
        | none => none
        | some nP =>
          let inv := buildInventory (rest2.take nP.toNat)
          let rest3 := rest2.drop nP.toNat
          let kitLines : List String :=
            match rest3 with
            | [] => []
            | kLine :: rest4 =>
              match parseFirstToken kLine with
              | some nK => rest4.take nK.toNat
              | none => []
          some (budget, inv, kitLines.filterMap parseKitRow)

/-- The whole of `main` as a function from the raw input lines to the final
`(best_score, best_kit)` pair; every early-return path yields `(0, "NONE")`. -/
def mainRun (raw : List String) : Int × String :=
  match parseInput raw with
  | none => (0, "NONE")
  | some (budget, inv, kits) => evalKits inv budget kits

/-- The two lines printed by `main`. -/
def mainOutput (raw : List String) : List String :=
  ["Maximum Score: " ++ toString (mainRun raw).1,
   "Best Build: " ++ (mainRun raw).2]

/-- The valid kits, in input order, paired with their scores: the kits on
which the evaluation loop reaches the score comparison. -/
def vPairs (inv : Inventory) (budget : Int) (kits : List Kit) :
    List (String × Int) :=
  kits.filterMap (fun k => (kitScore inv budget k).map (fun s => (k.kit_id, s)))

/-- Sample input refuting the literal reading of C1: one valid kit whose
total performance is negative. -/
def c1cexRows : List String :=
  ["c1 CPU -100 1 S 0", "m1 Motherboard 0 1 S D", "g1 GPU 0 1 - 0",
   "r1 RAM 0 1 D -", "p1 PSU 0 1 999 -"]

/-- The single kit of the C1 counterexample input. -/
def c1cexKit : Kit := ⟨"kA", "c1", "m1", "g1", "r1", "p1"⟩

/-- The full C1 counterexample input stream. -/
def c1cexInput : List String :=
  ["10", "5"] ++ c1cexRows ++ ["1", "kA c1 m1 g1 r1 p1"]

/-- A small inventory whose five components form one fully valid build
(score 10, cost 5, PSU wattage exactly at the power margin). -/
def wRows : List String :=
  ["c CPU 5 1 S 95", "m Motherboard 1 1 S DDR5", "g GPU 2 1 - 300",
   "r RAM 1 1 DDR5 -", "p PSU 1 1 445 -"]

/-- The inventory built from `wRows`. -/
def wInv : Inventory := buildInventory wRows

/-- The kit assembling the five `wRows` components. -/
def wKit : Kit := ⟨"k1", "c", "m", "g", "r", "p"⟩

/-- Inventory whose CPU has a non-numeric thermal-design-power field. -/
def badTdpRows : List String :=
  ["c CPU 5 1 S abc", "m Motherboard 1 1 S DDR5", "g GPU 2 1 - 300",
   "r RAM 1 1 DDR5 -", "p PSU 1 1 445 -"]

/-- The inventory built from `badTdpRows`. -/
def badTdpInv : Inventory := buildInventory badTdpRows

/-- A kit that wires the CPU identifier into all five slots. -/
def dupKit : Kit := ⟨"kd", "c", "c", "c", "c", "c"⟩

theorem lookup_insert (inv : Inventory) (c : Component) (cid : String) :
    Inventory.lookup (inv.insert c) cid
      = if c.id = cid then some c else Inventory.lookup inv cid := by
  by_cases h : c.id = cid
  · simp [Inventory.lookup, Inventory.insert, List.lookup, h]
  · have h2 : (cid == c.id) = false := by
      simp [beq_eq_false_iff_ne]
      exact fun he => h he.symm
    simp [Inventory.lookup, Inventory.insert, List.lookup, h2, h]

theorem lookup_foldl_insert (cs : List Component) (inv : Inventory) (cid : String) :
    Inventory.lookup (cs.foldl Inventory.insert inv) cid
      = (cs.reverse.find? (fun c => c.id == cid)).or (Inventory.lookup inv cid) := by
  induction cs generalizing inv with
  | nil => simp
  | cons c rest ih =>
    rw [List.foldl_cons, ih, List.reverse_cons, List.find?_append]
    by_cases h : c.id = cid
    · simp [lookup_insert, h, List.find?, Option.or_assoc]
    · have hb : (c.id == cid) = false := beq_eq_false_iff_ne.mpr h
      simp [lookup_insert, h, List.find?, hb, Option.or_assoc]

theorem foldl_insertRow (lines : List String) : ∀ inv : Inventory,
    lines.foldl insertRow inv
      = (lines.filterMap parseComponentRow).foldl Inventory.insert inv := by
  induction lines with
  | nil => intro inv; rfl
  | cons l rest ih =>
    intro inv
    rw [List.foldl_cons, List.filterMap_cons]
    cases h : parseComponentRow l <;> simp [insertRow, h, ih]

/-- C8: the inventory maps an identifier to the component built from the
last well-formed row carrying it (scanning the parsed rows in reverse finds
exactly that component); inserting a duplicate is a plain overwrite, never
an error and never the earlier entry. -/
theorem c8_last_write_wins (rows : List String) (cid : String) :
    Inventory.lookup (buildInventory rows) cid
      = ((rows.filterMap parseComponentRow).reverse).find?
          (fun c => c.id == cid) := by
  rw [buildInventory, foldl_insertRow, lookup_foldl_insert]
  simp [Inventory.lookup, List.lookup]

/-- C9 counterexample: the row `x CPU -5 10 a b` is well-formed for the
code and is stored with a negative performance score, contradicting the
claim that every stored component has a non-negative performance. -/
theorem c9_counterexample :
    Inventory.lookup (buildInventory ["x CPU -5 10 a b"]) "x"
        = some ⟨"x", "CPU", -5, 10, "a", "b"⟩ ∧
      (-5 : Int) < 0 :=
  ⟨rfl, by decide⟩

/-- C9 (amended): every component reachable in the built inventory comes
from some input row that parsed successfully; a row with fewer than six
fields is dropped; and for a six-field row the outcome is exactly
determined by the two `safe_int` parses, which admit any (possibly
negative) integer. -/
theorem c9_amended :
    (∀ (rows : List String) (cid : String) (c : Component),
        Inventory.lookup (buildInventory rows) cid = some c →
          ∃ row ∈ rows, parseComponentRow row = some c) ∧
      (∀ row : String, (splitWS row).length < 6 → parseComponentRow row = none) ∧
      (∀ (row cid ctype perfS costS s1 s2 : String) (rest : List String),
          splitWS row = cid :: ctype :: perfS :: costS :: s1 :: s2 :: rest →
            ((safe_int perfS = none ∨ safe_int costS = none) →
                parseComponentRow row = none) ∧
              (∀ perf cost : Int, safe_int perfS = some perf →
                  safe_int costS = some cost →
                    parseComponentRow row = some ⟨cid, ctype, perf, cost, s1, s2⟩)) := by
  refine ⟨?_, ?_, ?_⟩
  · intro rows cid c h
    rw [buildInventory, foldl_insertRow, lookup_foldl_insert] at h
    simp only [Inventory.lookup, List.lookup, Option.or_none] at h
    have hmem := List.mem_of_find?_eq_some h
    rw [List.mem_reverse, List.mem_filterMap] at hmem
    exact hmem
  · intro row h
    rcases hs : splitWS row with _ | ⟨a, _ | ⟨b, _ | ⟨c2, _ | ⟨d, _ | ⟨e, _ | ⟨f, rest⟩⟩⟩⟩⟩⟩ <;>
        rw [hs] at h <;> simp only [parseComponentRow, hs] <;>
      first
        | rfl
        | (simp only [List.length_cons] at h; omega)
  · intro row cid ctype perfS costS s1 s2 rest hs
    constructor
    · intro hbad
      rcases hbad with h | h
      · cases hc : safe_int costS <;> simp [parseComponentRow, hs, h, hc]
      · cases hp : safe_int perfS <;> simp [parseComponentRow, hs, h, hp]
    · intro perf cost hp hc
      simp [parseComponentRow, hs, hp, hc]

/-- C9 witness: a concrete six-field row with integer performance and cost
parses to the expected component. -/
theorem c9_amended_witness :
    parseComponentRow "x CPU 5 6 a b" = some ⟨"x", "CPU", 5, 6, "a", "b"⟩ :=
  (c9_amended.2.2 "x CPU 5 6 a b" "x" "CPU" "5" "6" "a" "b" [] rfl).2 5 6 rfl rfl

theorem le_foldl_max (l : List Int) (b : Int) : b ≤ l.foldl max b := by
  induction l generalizing b with
  | nil => exact le_refl b
  | cons a l ih => exact le_trans (le_max_left b a) (ih (max b a))

theorem mem_le_foldl_max {x : Int} (l : List Int) (b : Int) (h : x ∈ l) :
    x ≤ l.foldl max b := by
  induction l generalizing b with
  | nil => cases h
  | cons a l ih =>
    rcases List.mem_cons.mp h with rfl | h2
    · exact le_trans (le_max_right b x) (le_foldl_max l (max b x))
    · exact ih (max b a) h2

theorem vPairs_cons_none {inv : Inventory} {budget : Int} {k : Kit}
    (kits : List Kit) (h : kitScore inv budget k = none) :
    vPairs inv budget (k :: kits) = vPairs inv budget kits := by
  simp [vPairs, List.filterMap_cons, h]

theorem vPairs_cons_some {inv : Inventory} {budget : Int} {k : Kit} {s : Int}
    (kits : List Kit) (h : kitScore inv budget k = some s) :
    vPairs inv budget (k :: kits) = (k.kit_id, s) :: vPairs inv budget kits := by
  simp [vPairs, List.filterMap_cons, h]

theorem stepKit_none {inv : Inventory} {budget : Int} {k : Kit}
    (acc : Int × String) (h : kitScore inv budget k = none) :
    stepKit inv budget acc k = acc := by
  simp [stepKit, h]

theorem stepKit_some {inv : Inventory} {budget : Int} {k : Kit} {s : Int}
    (acc : Int × String) (h : kitScore inv budget k = some s) :
    stepKit inv budget acc k = if s > acc.1 then (s, k.kit_id) else acc := by
  simp [stepKit, h]

theorem evalFold_fst (inv : Inventory) (budget : Int) (kits : List Kit) :
    ∀ (b : Int) (name : String),
      (kits.foldl (stepKit inv budget) (b, name)).1
        = ((vPairs inv budget kits).map Prod.snd).foldl max b := by
  induction kits with
  | nil => intro b name; simp [vPairs]
  | cons k rest ih =>
    intro b name
    cases h : kitScore inv budget k with
    | none =>
      rw [vPairs_cons_none rest h, List.foldl_cons, stepKit_none _ h]
      exact ih b name
    | some s =>
      rw [vPairs_cons_some rest h, List.foldl_cons, stepKit_some _ h,
        List.map_cons, List.foldl_cons]
      by_cases hs : s > b
      · rw [if_pos hs, ih s k.kit_id]
        congr 1
        omega
      · rw [if_neg hs, ih b name]
        congr 1
        omega

theorem evalFold_keep (inv : Inventory) (budget : Int) (kits : List Kit) :
    ∀ (b : Int) (name : String),
      (∀ s ∈ (vPairs inv budget kits).map Prod.snd, s ≤ b) →
        kits.foldl (stepKit inv budget) (b, name) = (b, name) := by
  induction kits with
  | nil => intro b name _; rfl
  | cons k rest ih =>
    intro b name hall
    cases h : kitScore inv budget k with
    | none =>
      rw [vPairs_cons_none rest h] at hall
      rw [List.foldl_cons, stepKit_none _ h]
      exact ih b name hall
    | some s =>
      rw [vPairs_cons_some rest h] at hall
      simp only [List.map_cons, List.mem_cons] at hall
      have hsb : s ≤ b := hall s (Or.inl rfl)
      rw [List.foldl_cons, stepKit_some _ h, if_neg (by omega : ¬ s > b)]
      exact ih b name (fun t ht => hall t (Or.inr ht))

theorem evalFold_find (inv : Inventory) (budget : Int) (kits : List Kit) :
    ∀ (b : Int) (name : String),
      (∃ s ∈ (vPairs inv budget kits).map Prod.snd, b < s) →
        (vPairs inv budget kits).find?
            (fun p => p.2 == (kits.foldl (stepKit inv budget) (b, name)).1)
          = some ((kits.foldl (stepKit inv budget) (b, name)).2,
              (kits.foldl (stepKit inv budget) (b, name)).1) := by
  induction kits with
  | nil => intro b name hex; simp [vPairs] at hex
  | cons k rest ih =>
    intro b name hex
    cases h : kitScore inv budget k with
    | none =>
      rw [vPairs_cons_none rest h] at hex ⊢
      rw [List.foldl_cons, stepKit_none _ h]
      exact ih b name hex
    | some s =>
      rw [vPairs_cons_some rest h] at hex ⊢
      simp only [List.map_cons, List.mem_cons] at hex
      by_cases hs : b < s
      · rw [List.foldl_cons, stepKit_some _ h, if_pos (by omega : s > b)]
        by_cases hall : ∀ t ∈ (vPairs inv budget rest).map Prod.snd, t ≤ s
        · rw [evalFold_keep inv budget rest s k.kit_id hall]
          apply List.find?_cons_of_pos
          simp
        · push_neg at hall
          obtain ⟨t, ht, hts⟩ := hall
          have hr1 : s < (rest.foldl (stepKit inv budget) (s, k.kit_id)).1 := by
            rw [evalFold_fst inv budget rest s k.kit_id]
            exact lt_of_lt_of_le hts (mem_le_foldl_max _ s ht)
          rw [List.find?_cons_of_neg]
          · exact ih s k.kit_id ⟨t, ht, hts⟩
          · simp only [beq_iff_eq]
            omega
      · rw [List.foldl_cons, stepKit_some _ h, if_neg (by omega : ¬ s > b)]
        obtain ⟨t, ht, hbt⟩ := hex
        rcases ht with rfl | ht2
        · omega
        have hex2 : ∃ u ∈ (vPairs inv budget rest).map Prod.snd, b < u :=
          ⟨t, ht2, hbt⟩
        have hr1 : b < (rest.foldl (stepKit inv budget) (b, name)).1 := by
          rw [evalFold_fst inv budget rest b name]
          exact lt_of_lt_of_le hbt (mem_le_foldl_max _ b ht2)
        rw [List.find?_cons_of_neg]
        · exact ih b name hex2
        · simp only [beq_iff_eq]
          omega

/-- C1 (amended): the reported maximum score equals the maximum of 0 and
the valid kits' scores; when that maximum is 0 the reported build is the
sentinel "NONE" (even if valid kits scoring 0 — or negative — exist); when
it is nonzero the reported build is the first valid kit in input order
whose score equals it. -/
theorem c1_amended (inv : Inventory) (budget : Int) (kits : List Kit) :
    (evalKits inv budget kits).1
        = ((vPairs inv budget kits).map Prod.snd).foldl max 0 ∧
      ((evalKits inv budget kits).1 = 0 → (evalKits inv budget kits).2 = "NONE") ∧
      ((evalKits inv budget kits).1 ≠ 0 →
        (vPairs inv budget kits).find?
            (fun p => p.2 == (evalKits inv budget kits).1)
          = some ((evalKits inv budget kits).2, (evalKits inv budget kits).1)) := by
  refine ⟨evalFold_fst inv budget kits 0 "NONE", ?_, ?_⟩
  · intro h0
    by_cases hall : ∀ s ∈ (vPairs inv budget kits).map Prod.snd, s ≤ 0
    · have h := evalFold_keep inv budget kits 0 "NONE" hall
      show (kits.foldl (stepKit inv budget) (0, "NONE")).2 = "NONE"
      rw [h]
    · push_neg at hall
      obtain ⟨t, ht, hts⟩ := hall
      exfalso
      have h1 : (evalKits inv budget kits).1
          = ((vPairs inv budget kits).map Prod.snd).foldl max 0 :=
        evalFold_fst inv budget kits 0 "NONE"
      have h2 : t ≤ ((vPairs inv budget kits).map Prod.snd).foldl max 0 :=
        mem_le_foldl_max _ 0 ht
      omega
  · intro hne
    by_cases hall : ∀ s ∈ (vPairs inv budget kits).map Prod.snd, s ≤ 0
    · exfalso
      apply hne
      have h := evalFold_keep inv budget kits 0 "NONE" hall
      show (kits.foldl (stepKit inv budget) (0, "NONE")).1 = 0
      rw [h]
    · push_neg at hall
      obtain ⟨t, ht, hts⟩ := hall
      exact evalFold_find inv budget kits 0 "NONE" ⟨t, ht, hts⟩

/-- C1 counterexample: on `c1cexInput` the single kit `kA` is valid with
score -100, which is the maximum score over all valid kits and is not 0,
yet the program reports score 0 and the sentinel "NONE" rather than `kA`:
the claim's description does not cover valid kits of negative score. -/
theorem c1_counterexample :
    parseInput c1cexInput = some (10, buildInventory c1cexRows, [c1cexKit]) ∧
      vPairs (buildInventory c1cexRows) 10 [c1cexKit]
        = [(c1cexKit.kit_id, -100)] ∧
      mainRun c1cexInput = (0, "NONE") ∧
      c1cexKit.kit_id ≠ "NONE" ∧ (-100 : Int) ≠ 0 :=
  ⟨rfl, rfl, rfl, by decide, by decide⟩

/-- C1 witness: on a concrete one-kit input with positive score, the
reported build is the first valid kit achieving the reported maximum. -/
theorem c1_amended_witness :
    (vPairs wInv 10 [wKit]).find?
        (fun p => p.2 == (evalKits wInv 10 [wKit]).1)
      = some ((evalKits wInv 10 [wKit]).2, (evalKits wInv 10 [wKit]).1) :=
  (c1_amended wInv 10 [wKit]).2.2 (by decide)

theorem resolveKit_eq {inv : Inventory} {kit : Kit} {b : PCBuild}
    (hres : resolveKit inv kit = some b) :
    inv.lookup kit.cpu_id = some b.cpu ∧ inv.lookup kit.mobo_id = some b.mobo ∧
      inv.lookup kit.gpu_id = some b.gpu ∧ inv.lookup kit.ram_id = some b.ram ∧
      inv.lookup kit.psu_id = some b.psu := by
  unfold resolveKit at hres
  cases h1 : Inventory.lookup inv kit.cpu_id with
  | none => rw [h1] at hres; simp at hres
  | some cpu =>
    rw [h1] at hres
    cases h2 : Inventory.lookup inv kit.mobo_id with
    | none => rw [h2] at hres; simp at hres
    | some mobo =>
      rw [h2] at hres
      cases h3 : Inventory.lookup inv kit.gpu_id with
      | none => rw [h3] at hres; simp at hres
      | some gpu =>
        rw [h3] at hres
        cases h4 : Inventory.lookup inv kit.ram_id with
        | none => rw [h4] at hres; simp at hres
        | some ram =>
          rw [h4] at hres
          cases h5 : Inventory.lookup inv kit.psu_id with
          | none => rw [h5] at hres; simp at hres
          | some psu =>
            rw [h5] at hres
            simp only [Option.some.injEq] at hres
            subst hres
            exact ⟨rfl, rfl, rfl, rfl, rfl⟩

theorem evalKits_skip (inv : Inventory) (budget : Int) (pre post : List Kit)
    (kit : Kit) (h : kitScore inv budget kit = none) :
    evalKits inv budget (pre ++ kit :: post)
      = evalKits inv budget (pre ++ post) := by
  unfold evalKits
  rw [List.foldl_append, List.foldl_append, List.foldl_cons, stepKit_none _ h]

theorem kitScore_eq_of_resolve {inv : Inventory} {kit : Kit} {b : PCBuild}
    (hres : resolveKit inv kit = some b) (budget : Int) :
    kitScore inv budget kit
      = if typesOk b then
          if b.total_cost > budget then none
          else if b.is_compatible then some b.total_performance else none
        else none := by
  unfold kitScore
  rw [hres]

theorem kitScore_mono (inv : Inventory) (b1 b2 : Int) (k : Kit) (s : Int)
    (h12 : b1 ≤ b2) (h : kitScore inv b1 k = some s) :
    kitScore inv b2 k = some s := by
  cases hres : resolveKit inv k with
  | none => simp [kitScore, hres] at h
  | some b =>
    rw [kitScore_eq_of_resolve hres b1] at h
    rw [kitScore_eq_of_resolve hres b2]
    by_cases hty : typesOk b = true
    · rw [if_pos hty] at h ⊢
      by_cases hc1 : b.total_cost > b1
      · rw [if_pos hc1] at h; simp at h
      · rw [if_neg hc1] at h
        rw [if_neg (by omega : ¬ b.total_cost > b2)]
        exact h
    · rw [if_neg hty] at h; simp at h

theorem evalFold_mono (inv : Inventory) (b1 b2 : Int) (h12 : b1 ≤ b2) :
    ∀ (kits : List Kit) (a1 a2 : Int) (n1 n2 : String), a1 ≤ a2 →
      (kits.foldl (stepKit inv b1) (a1, n1)).1
        ≤ (kits.foldl (stepKit inv b2) (a2, n2)).1 := by
  intro kits
  induction kits with
  | nil => intro a1 a2 n1 n2 ha; exact ha
  | cons k rest ih =>
    intro a1 a2 n1 n2 ha
    rw [List.foldl_cons, List.foldl_cons]
    cases h1 : kitScore inv b1 k with
    | some s =>
      have h2k : kitScore inv b2 k = some s := kitScore_mono inv b1 b2 k s h12 h1
      rw [stepKit_some _ h1, stepKit_some _ h2k]
      by_cases hs1 : s > a1
      · by_cases hs2 : s > a2
        · rw [if_pos hs1, if_pos hs2]; exact ih s s _ _ le_rfl
        · rw [if_pos hs1, if_neg hs2]; exact ih s a2 _ _ (by omega)
      · by_cases hs2 : s > a2
        · rw [if_neg hs1, if_pos hs2]; exact ih a1 s _ _ (by omega)
        · rw [if_neg hs1, if_neg hs2]; exact ih a1 a2 _ _ ha
    | none =>
      rw [stepKit_none _ h1]
      cases h2k : kitScore inv b2 k with
      | none => rw [stepKit_none _ h2k]; exact ih a1 a2 _ _ ha
      | some t =>
        rw [stepKit_some _ h2k]
        by_cases hs : t > a2
        · rw [if_pos hs]; exact ih a1 t _ _ (by omega)
        · rw [if_neg hs]; exact ih a1 a2 _ _ ha

theorem evalFold_snd_mem (inv : Inventory) (budget : Int) (kits : List Kit) :
    ∀ (b : Int) (name : String),
      (kits.foldl (stepKit inv budget) (b, name)).2 = name ∨
        (kits.foldl (stepKit inv budget) (b, name)).2 ∈ kits.map Kit.kit_id := by
  induction kits with
  | nil => intro b name; left; rfl
  | cons k rest ih =>
    intro b name
    rw [List.foldl_cons, List.map_cons]
    cases h : kitScore inv budget k with
    | none =>
      rw [stepKit_none _ h]
      rcases ih b name with h1 | h1
      · left; exact h1
      · right; exact List.mem_cons_of_mem _ h1
    | some s =>
      rw [stepKit_some _ h]
      by_cases hs : s > b
      · rw [if_pos hs]
        rcases ih s k.kit_id with h1 | h1
        · right; rw [h1]; exact List.mem_cons_self _ _
        · right; exact List.mem_cons_of_mem _ h1
      · rw [if_neg hs]
        rcases ih b name with h1 | h1
        · left; exact h1
        · right; exact List.mem_cons_of_mem _ h1

/-- C2: for a build whose string checks pass and whose CPU TDP, GPU TDP and
PSU wattage all parse, compatibility holds exactly when the PSU wattage is
at least CPU TDP + GPU TDP + 50; equality passes and a one-unit shortfall
fails. -/
theorem c2_power_sufficiency (b : PCBuild) (ct gt pw : Int)
    (hsock : b.cpu.spec1 = b.mobo.spec1) (hram : b.ram.spec1 = b.mobo.spec2)
    (hct : parseInt b.cpu.spec2 = some ct) (hgt : parseInt b.gpu.spec2 = some gt)
    (hpw : parseInt b.psu.spec1 = some pw) :
    b.is_compatible = true ↔ ct + gt + 50 ≤ pw := by
  simp only [PCBuild.is_compatible, hsock, hram, hct, hgt, hpw,
    bne_self_eq_false, Bool.false_eq_true, if_false]
  by_cases h : pw < ct + gt + 50
  · rw [if_pos h]
    constructor
    · intro hf; cases hf
    · intro hle; omega
  · rw [if_neg h]
    constructor
    · intro _; omega
    · intro _; rfl

/-- C2 witness: PSU wattage exactly 95 + 300 + 50 = 445 is compatible; 444
is not. -/
theorem c2_power_sufficiency_witness :
    (PCBuild.mk "w" ⟨"c", "CPU", 1, 1, "S", "95"⟩
        ⟨"m", "Motherboard", 1, 1, "S", "DDR5"⟩ ⟨"g", "GPU", 1, 1, "-", "300"⟩
        ⟨"r", "RAM", 1, 1, "DDR5", "-"⟩
        ⟨"p", "PSU", 1, 1, "445", "-"⟩).is_compatible = true ∧
      (PCBuild.mk "w" ⟨"c", "CPU", 1, 1, "S", "95"⟩
        ⟨"m", "Motherboard", 1, 1, "S", "DDR5"⟩ ⟨"g", "GPU", 1, 1, "-", "300"⟩
        ⟨"r", "RAM", 1, 1, "DDR5", "-"⟩
        ⟨"p", "PSU", 1, 1, "444", "-"⟩).is_compatible = false :=
  ⟨(c2_power_sufficiency
      (PCBuild.mk "w" ⟨"c", "CPU", 1, 1, "S", "95"⟩
        ⟨"m", "Motherboard", 1, 1, "S", "DDR5"⟩ ⟨"g", "GPU", 1, 1, "-", "300"⟩
        ⟨"r", "RAM", 1, 1, "DDR5", "-"⟩ ⟨"p", "PSU", 1, 1, "445", "-"⟩)
      95 300 445 rfl rfl rfl rfl rfl).mpr (by decide),
    by decide⟩

/-- C3: if any of the CPU TDP, GPU TDP or PSU wattage strings fails to
parse as an optionally signed base-10 integer, a resolved kit is rejected
(kitScore is none — a normal rejection, the model is a total function);
when all three parse, compatibility is decided purely by the two string
checks and the power rule, so the parse step never blocks such kits. -/
theorem c3_numeric_parse :
    (∀ (inv : Inventory) (budget : Int) (kit : Kit) (b : PCBuild),
        resolveKit inv kit = some b →
          (parseInt b.cpu.spec2 = none ∨ parseInt b.gpu.spec2 = none ∨
              parseInt b.psu.spec1 = none) →
            kitScore inv budget kit = none) ∧
      (∀ (b : PCBuild) (ct gt pw : Int),
          parseInt b.cpu.spec2 = some ct → parseInt b.gpu.spec2 = some gt →
            parseInt b.psu.spec1 = some pw →
              (b.is_compatible = true ↔
                (b.cpu.spec1 = b.mobo.spec1 ∧ b.ram.spec1 = b.mobo.spec2 ∧
                  ct + gt + 50 ≤ pw))) := by
  constructor
  · intro inv budget kit b hres hbad
    have hic : b.is_compatible = false := by
      unfold PCBuild.is_compatible
      rcases hbad with h | h | h
      · cases hg : parseInt b.gpu.spec2 <;> cases hp : parseInt b.psu.spec1 <;>
          simp [h, hg, hp]
      · cases hc : parseInt b.cpu.spec2 <;> cases hp : parseInt b.psu.spec1 <;>
          simp [h, hc, hp]
      · cases hc : parseInt b.cpu.spec2 <;> cases hg : parseInt b.gpu.spec2 <;>
          simp [h, hc, hg]
    rw [kitScore_eq_of_resolve hres budget]
    simp [hic]
  · intro b ct gt pw hct hgt hpw
    by_cases h1 : b.cpu.spec1 = b.mobo.spec1
    · by_cases h2 : b.ram.spec1 = b.mobo.spec2
      · simp only [PCBuild.is_compatible, h1, h2, hct, hgt, hpw,
          bne_self_eq_false, Bool.false_eq_true, if_false]
        by_cases h : pw < ct + gt + 50
        · rw [if_pos h]
          simp
          omega
        · rw [if_neg h]
          simp
          omega
      · simp [PCBuild.is_compatible, bne_iff_ne, h2]
    · simp [PCBuild.is_compatible, bne_iff_ne, h1]

/-- C3 witness: a resolved kit whose CPU TDP string is "abc" is rejected
with no error. -/
theorem c3_numeric_parse_witness : kitScore badTdpInv 1000 wKit = none :=
  c3_numeric_parse.1 badTdpInv 1000 wKit
    ⟨"k1", ⟨"c", "CPU", 5, 1, "S", "abc"⟩, ⟨"m", "Motherboard", 1, 1, "S", "DDR5"⟩,
      ⟨"g", "GPU", 2, 1, "-", "300"⟩, ⟨"r", "RAM", 1, 1, "DDR5", "-"⟩,
      ⟨"p", "PSU", 1, 1, "445", "-"⟩⟩
    rfl (Or.inl rfl)

/-- C5: a resolved, type-correct kit is rejected at the cost step exactly
when the sum of the five component costs strictly exceeds the budget; when
the total cost is at most the budget (equality included) the outcome is
decided by the compatibility check alone. -/
theorem c5_cost_check (inv : Inventory) (budget : Int) (kit : Kit) (b : PCBuild)
    (hres : resolveKit inv kit = some b) (hty : typesOk b = true) :
    (b.total_cost > budget → kitScore inv budget kit = none) ∧
      (b.total_cost ≤ budget →
        kitScore inv budget kit
          = if b.is_compatible then some b.total_performance else none) := by
  rw [kitScore_eq_of_resolve hres budget, if_pos hty]
  constructor
  · intro h
    rw [if_pos h]
  · intro h
    rw [if_neg (by omega : ¬ b.total_cost > budget)]

/-- C5 witness: the sample build costs 5, so with budget 3 it is rejected
at the cost step. -/
theorem c5_cost_check_witness : kitScore wInv 3 wKit = none :=
  (c5_cost_check wInv 3 wKit
    ⟨"k1", ⟨"c", "CPU", 5, 1, "S", "95"⟩, ⟨"m", "Motherboard", 1, 1, "S", "DDR5"⟩,
      ⟨"g", "GPU", 2, 1, "-", "300"⟩, ⟨"r", "RAM", 1, 1, "DDR5", "-"⟩,
      ⟨"p", "PSU", 1, 1, "445", "-"⟩⟩
    rfl rfl).1 (by decide)

/-- C6: a kit referencing an identifier absent from the inventory scores
`none` and its presence in the kit list never changes the reported result,
so it is never selected regardless of what it would have scored. -/
theorem c6_missing_reference (inv : Inventory) (budget : Int) (kit : Kit)
    (pre post : List Kit)
    (hmiss : inv.lookup kit.cpu_id = none ∨ inv.lookup kit.mobo_id = none ∨
      inv.lookup kit.gpu_id = none ∨ inv.lookup kit.ram_id = none ∨
      inv.lookup kit.psu_id = none) :
    kitScore inv budget kit = none ∧
      evalKits inv budget (pre ++ kit :: post)
        = evalKits inv budget (pre ++ post) := by
  have hres : resolveKit inv kit = none := by
    unfold resolveKit
    rcases hmiss with h | h | h | h | h <;>
      cases h1 : Inventory.lookup inv kit.cpu_id <;>
      cases h2 : Inventory.lookup inv kit.mobo_id <;>
      cases h3 : Inventory.lookup inv kit.gpu_id <;>
      cases h4 : Inventory.lookup inv kit.ram_id <;>
      cases h5 : Inventory.lookup inv kit.psu_id <;>
      simp_all
  have hks : kitScore inv budget kit = none := by simp [kitScore, hres]
  exact ⟨hks, evalKits_skip inv budget pre post kit hks⟩

/-- C6 witness: over the empty inventory every reference is missing, so a
kit scores none and dropping it from the kit list changes nothing. -/
theorem c6_missing_reference_witness :
    kitScore ([] : Inventory) 0 wKit = none ∧
      evalKits ([] : Inventory) 0 ([] ++ wKit :: [])
        = evalKits ([] : Inventory) 0 ([] ++ []) :=
  c6_missing_reference [] 0 wKit [] [] (Or.inl rfl)

/-- C7: with the inventory and kit list fixed, raising the budget never
decreases the reported maximum score. -/
theorem c7_budget_monotone (inv : Inventory) (kits : List Kit) (b1 b2 : Int)
    (h : b1 ≤ b2) : (evalKits inv b1 kits).1 ≤ (evalKits inv b2 kits).1 :=
  evalFold_mono inv b1 b2 h kits 0 0 "NONE" "NONE" le_rfl

/-- C7 witness: on the sample inventory the best score with budget 4 is at
most the best score with budget 10. -/
theorem c7_budget_monotone_witness :
    (evalKits wInv 4 [wKit]).1 ≤ (evalKits wInv 10 [wKit]).1 :=
  c7_budget_monotone wInv [wKit] 4 10 (by decide)

/-- C10: a kit that places one identifier in two different slots, with all
five references resolving, always fails the type-match step (one component
has a single declared type, which cannot equal two distinct expected slot
types), scores none, and is never selected. -/
theorem c10_duplicate_id (inv : Inventory) (budget : Int) (kit : Kit)
    (b : PCBuild) (hres : resolveKit inv kit = some b)
    (hdup : kit.cpu_id = kit.mobo_id ∨ kit.cpu_id = kit.gpu_id ∨
      kit.cpu_id = kit.ram_id ∨ kit.cpu_id = kit.psu_id ∨
      kit.mobo_id = kit.gpu_id ∨ kit.mobo_id = kit.ram_id ∨
      kit.mobo_id = kit.psu_id ∨ kit.gpu_id = kit.ram_id ∨
      kit.gpu_id = kit.psu_id ∨ kit.ram_id = kit.psu_id) :
    typesOk b = false ∧ kitScore inv budget kit = none ∧
      ∀ pre post : List Kit,
        evalKits inv budget (pre ++ kit :: post)
          = evalKits inv budget (pre ++ post) := by
  obtain ⟨h1, h2, h3, h4, h5⟩ := resolveKit_eq hres
  have hty : typesOk b = false := by
    cases hb : typesOk b with
    | false => rfl
    | true =>
    exfalso
    simp only [typesOk, Bool.and_eq_true, beq_iff_eq] at hb
    obtain ⟨⟨⟨⟨tc, tm⟩, tg⟩, tr⟩, tp⟩ := hb
    rcases hdup with h | h | h | h | h | h | h | h | h | h
    · rw [h] at h1
      injection h1.symm.trans h2 with he
      rw [he] at tc
      exact absurd (tc.symm.trans tm) (by decide)
    · rw [h] at h1
      injection h1.symm.trans h3 with he
      rw [he] at tc
      exact absurd (tc.symm.trans tg) (by decide)
    · rw [h] at h1
      injection h1.symm.trans h4 with he
      rw [he] at tc
      exact absurd (tc.symm.trans tr) (by decide)
    · rw [h] at h1
      injection h1.symm.trans h5 with he
      rw [he] at tc
      exact absurd (tc.symm.trans tp) (by decide)
    · rw [h] at h2
      injection h2.symm.trans h3 with he
      rw [he] at tm
      exact absurd (tm.symm.trans tg) (by decide)
    · rw [h] at h2
      injection h2.symm.trans h4 with he
      rw [he] at tm
      exact absurd (tm.symm.trans tr) (by decide)
    · rw [h] at h2
      injection h2.symm.trans h5 with he
      rw [he] at tm
      exact absurd (tm.symm.trans tp) (by decide)
    · rw [h] at h3
      injection h3.symm.trans h4 with he
      rw [he] at tg
      exact absurd (tg.symm.trans tr) (by decide)
    · rw [h] at h3
      injection h3.symm.trans h5 with he
      rw [he] at tg
      exact absurd (tg.symm.trans tp) (by decide)
    · rw [h] at h4
      injection h4.symm.trans h5 with he
      rw [he] at tr
      exact absurd (tr.symm.trans tp) (by decide)
  have hks : kitScore inv budget kit = none := by
    rw [kitScore_eq_of_resolve hres budget, if_neg]
    rw [hty]
    exact Bool.false_ne_true
  exact ⟨hty, hks, fun pre post => evalKits_skip inv budget pre post kit hks⟩

/-- C10 witness: the kit wiring the CPU id "c" into all five slots resolves
but fails the type-match step and scores none. -/
theorem c10_duplicate_id_witness :
    typesOk ⟨"kd", ⟨"c", "CPU", 5, 1, "S", "95"⟩, ⟨"c", "CPU", 5, 1, "S", "95"⟩,
        ⟨"c", "CPU", 5, 1, "S", "95"⟩, ⟨"c", "CPU", 5, 1, "S", "95"⟩,
        ⟨"c", "CPU", 5, 1, "S", "95"⟩⟩ = false ∧
      kitScore wInv 100 dupKit = none :=
  ⟨(c10_duplicate_id wInv 100 dupKit
      ⟨"kd", ⟨"c", "CPU", 5, 1, "S", "95"⟩, ⟨"c", "CPU", 5, 1, "S", "95"⟩,
        ⟨"c", "CPU", 5, 1, "S", "95"⟩, ⟨"c", "CPU", 5, 1, "S", "95"⟩,
        ⟨"c", "CPU", 5, 1, "S", "95"⟩⟩ rfl (Or.inl rfl)).1,
    (c10_duplicate_id wInv 100 dupKit
      ⟨"kd", ⟨"c", "CPU", 5, 1, "S", "95"⟩, ⟨"c", "CPU", 5, 1, "S", "95"⟩,
        ⟨"c", "CPU", 5, 1, "S", "95"⟩, ⟨"c", "CPU", 5, 1, "S", "95"⟩,
        ⟨"c", "CPU", 5, 1, "S", "95"⟩⟩ rfl (Or.inl rfl)).2.1⟩

/-- C4: the program always emits exactly the two lines
"Maximum Score: ..." then "Best Build: ...", the reported build being a kit
id from the input or the sentinel "NONE"; and whenever the stripped input
is empty, the budget line fails to parse, the P line is missing, or the P
line fails to parse, the result is score 0 and build "NONE" with no kit
evaluation (the input-reading phase itself returns none). -/
theorem c4_output_shape (raw : List String) :
    mainOutput raw
        = ["Maximum Score: " ++ toString (mainRun raw).1,
            "Best Build: " ++ (mainRun raw).2] ∧
      (mainOutput raw).length = 2 ∧
      (∀ (budget : Int) (inv : Inventory) (kits : List Kit),
        parseInput raw = some (budget, inv, kits) →
          ((mainRun raw).2 = "NONE" ∨ (mainRun raw).2 ∈ kits.map Kit.kit_id)) ∧
      (parseInput raw = none → mainRun raw = (0, "NONE")) ∧
      (stripData raw = [] → mainRun raw = (0, "NONE")) ∧
      (∀ (bLine : String) (rest : List String),
        stripData raw = bLine :: rest → parseFirstToken bLine = none →
          mainRun raw = (0, "NONE")) ∧
      (∀ bLine : String, stripData raw = [bLine] → mainRun raw = (0, "NONE")) ∧
      (∀ (bLine pLine : String) (rest : List String),
        stripData raw = bLine :: pLine :: rest → parseFirstToken pLine = none →
          mainRun raw = (0, "NONE")) := by
  refine ⟨rfl, rfl, ?_, ?_, ?_, ?_, ?_, ?_⟩
  · intro budget inv kits hp
    have hrun : mainRun raw = evalKits inv budget kits := by
      unfold mainRun
      rw [hp]
    rw [hrun]
    exact evalFold_snd_mem inv budget kits 0 "NONE"
  · intro hp
    unfold mainRun
    rw [hp]
  · intro hd
    unfold mainRun parseInput
    rw [hd]
  · intro bLine rest hd hb
    unfold mainRun parseInput
    rw [hd]
    simp [hb]
  · intro bLine hd
    unfold mainRun parseInput
    rw [hd]
    cases hb : parseFirstToken bLine <;> simp [hb]
  · intro bLine pLine rest hd hp
    unfold mainRun parseInput
    rw [hd]
    cases hb : parseFirstToken bLine <;> simp [hb, hp]

/-- C4 witness: on the input consisting of the single line "abc" the budget
parse fails and the program reports score 0 and build "NONE". -/
theorem c4_output_shape_witness : mainRun ["abc"] = (0, "NONE") :=
  (c4_output_shape ["abc"]).2.2.2.1 rfl
